import Mathlib

/-!
Verification of the Master AI orchestration core (`orchestrator.py`).

Every definition below is a shallow embedding of the correspondingly named
Python function or class of `orchestrator.py`; the line numbers in the doc
comments refer to that file.  Wall-clock instants, token balances and delays
are modelled as rationals; a raised Python exception is modelled as
`Except.error` carrying the exception message; the outcome of an upstream
HTTP call is passed in as an explicit `Except String String` parameter.
-/

namespace Orchestrator

/-! ### WorkflowState (lines 24-49) -/

/-- Python `dict` assignment `m[name] = v`: overwrite the existing entry in
place, otherwise append a new one. -/
def setEntry (m : List (String × String)) (name v : String) : List (String × String) :=
  if (m.lookup name).isSome then
    m.map (fun p => if p.1 = name then (name, v) else p)
  else m ++ [(name, v)]

/-- `WorkflowState` (lines 24-28): the mutable variable bag threaded through a
workflow run.  Values are modelled by their string form (the form
`replace_variables` substitutes). -/
structure WorkflowState where
  vars : List (String × String)
  metadata : List (String × String)

/-- `WorkflowState.set_variable` (lines 30-33). -/
def WorkflowState.set_variable (s : WorkflowState) (name v : String) : WorkflowState :=
  { s with vars := setEntry s.vars name v }

/-- `WorkflowState.get_variable` (lines 35-37): `self.variables.get(name)`,
`none` when the variable is unset. -/
def WorkflowState.get_variable (s : WorkflowState) (name : String) : Option String :=
  s.vars.lookup name

/-- Helper for the regex `\x7b([^\x7d]+)\x7d` of `replace_variables`
(line 49): split a character list at its first closing brace, returning the
characters before it (the candidate group, may be empty) and the characters
after it; `none` when no closing brace occurs. -/
def splitAtClose : List Char → Option (List Char × List Char)
  | [] => none
  | c :: rest =>
    if c = '}' then some ([], rest)
    else
      match splitAtClose rest with
      | some (name, after) => some (c :: name, after)
      | none => none

/-- The scan performed by `re.sub` in `replace_variables` (lines 39-49): at
each position, a match requires an opening brace, one or more non-brace
characters (the group), and a closing brace; a matched group naming a set
variable is replaced by the variable's string form, an unset one is left
verbatim, and the replacement text is never rescanned.  The fuel argument
(first `ℕ`) makes the recursion structural; one unit is spent per scanned
position, so any fuel of at least the list's length computes the scan. -/
def replaceVarsFuel (vars : String → Option String) : ℕ → List Char → List Char
  | 0, l => l
  | _ + 1, [] => []
  | fuel + 1, c :: rest =>
    if c = '{' then
      match splitAtClose rest with
      | some (name, after) =>
        if name = [] then c :: replaceVarsFuel vars fuel rest
        else
          (match vars (String.mk name) with
           | some v => v.data
           | none => '{' :: (name ++ ['}'])) ++ replaceVarsFuel vars fuel after
      | none => c :: replaceVarsFuel vars fuel rest
    else c :: replaceVarsFuel vars fuel rest

/-- `WorkflowState.replace_variables` (lines 39-49). -/
def WorkflowState.replace_variables (s : WorkflowState) (text : String) : String :=
  String.mk (replaceVarsFuel (fun n => s.get_variable n) text.data.length text.data)

/-! ### TokenBucket (lines 52-75) -/

/-- `TokenBucket` (lines 52-59): capacity, current balance, refill rate in
tokens per second, timestamp of the last refill. -/
structure TokenBucket where
  capacity : ℚ
  tokens : ℚ
  refill_rate : ℚ
  last_refill : ℚ

/-- `TokenBucket._refill` (lines 69-75): lazily add `elapsed * refill_rate`
tokens, capped at the capacity, and advance the refill timestamp. -/
def TokenBucket._refill (tb : TokenBucket) (now : ℚ) : TokenBucket :=
  let elapsed := now - tb.last_refill
  let new_tokens := elapsed * tb.refill_rate
  { tb with tokens := min tb.capacity (tb.tokens + new_tokens), last_refill := now }

/-- `TokenBucket.consume` (lines 61-67): refill, then succeed and decrement
exactly when the refilled balance covers the request. -/
def TokenBucket.consume (tb : TokenBucket) (now : ℚ) (tokens_required : ℚ) :
    TokenBucket × Bool :=
  let tb2 := tb._refill now
  if tokens_required ≤ tb2.tokens then
    ({ tb2 with tokens := tb2.tokens - tokens_required }, true)
  else (tb2, false)

/-- A sequence of `consume` calls, each tagged with its wall-clock instant and
requested token count. -/
def TokenBucket.consumeSeq (tb : TokenBucket) : List (ℚ × ℚ) → TokenBucket
  | [] => tb
  | (now, n) :: rest => ((tb.consume now n).1).consumeSeq rest

/-- Well-formed call sequences: instants never go backwards from the given
start, and every requested token count is nonnegative. -/
def CallsOK : ℚ → List (ℚ × ℚ) → Prop
  | _, [] => True
  | t, (now, n) :: rest => t ≤ now ∧ 0 ≤ n ∧ CallsOK now rest

/-! ### CircuitBreaker (lines 78-112) -/

/-- The three breaker states of line 86. -/
inductive CBState
  | closed
  | opened
  | halfOpen
deriving DecidableEq

/-- `CircuitBreaker` fields (lines 81-86). -/
structure CircuitBreaker where
  failure_threshold : ℕ
  timeout_seconds : ℚ
  failures : ℕ
  last_failure_time : Option ℚ
  state : CBState

/-- `CircuitBreaker.__init__` (lines 81-86). -/
def CircuitBreaker.init (failure_threshold : ℕ) (timeout_seconds : ℚ) : CircuitBreaker :=
  { failure_threshold := failure_threshold, timeout_seconds := timeout_seconds,
    failures := 0, last_failure_time := none, state := CBState.closed }

/-- Result of one `CircuitBreaker.call`: the updated breaker, the call's
outcome (`Except.error` models the raised exception), and whether the wrapped
function was actually invoked. -/
structure CallOutcome (α : Type) where
  breaker : CircuitBreaker
  result : Except String α
  invoked : Bool

/-- The `try` block of `CircuitBreaker.call` (lines 97-112): invoke the
wrapped function (its behaviour is the `outcome` argument); on success a
half-open breaker closes and resets its counter; on failure the counter and
failure timestamp are updated and the breaker opens once the counter reaches
the threshold, re-raising the exception. -/
def CircuitBreaker.callThrough (cb : CircuitBreaker) (now : ℚ) (outcome : Except String α) :
    CallOutcome α :=
  match outcome with
  | Except.ok v =>
    let cb2 := if cb.state = CBState.halfOpen
      then { cb with state := CBState.closed, failures := 0 } else cb
    { breaker := cb2, result := Except.ok v, invoked := true }
  | Except.error e =>
    let cb2 := { cb with failures := cb.failures + 1, last_failure_time := some now }
    let cb3 := if cb2.failure_threshold ≤ cb2.failures
      then { cb2 with state := CBState.opened } else cb2
    { breaker := cb3, result := Except.error e, invoked := true }

/-- `CircuitBreaker.call` (lines 88-112).  An open breaker whose timeout has
elapsed enters half-open and proceeds; an open breaker within its timeout
raises without invoking the wrapped function.  An open breaker with no
recorded failure time would make Python raise a `TypeError` on the
subtraction; that state is unreachable from `CircuitBreaker.init`. -/
def CircuitBreaker.call (cb : CircuitBreaker) (now : ℚ) (outcome : Except String α) :
    CallOutcome α :=
  match cb.state with
  | CBState.opened =>
    match cb.last_failure_time with
    | some t =>
      if now - t > cb.timeout_seconds then
        CircuitBreaker.callThrough { cb with state := CBState.halfOpen } now outcome
      else
        { breaker := cb, result := Except.error ("Circuit breaker is OPEN"), invoked := false }
    | none =>
      { breaker := cb, result := Except.error ("TypeError"), invoked := false }
  | CBState.closed => CircuitBreaker.callThrough cb now outcome
  | CBState.halfOpen => CircuitBreaker.callThrough cb now outcome

/-- A run of consecutive failing calls through the breaker (the wrapped
function raises `e` whenever it is invoked), returning the final breaker and,
for each call, whether the wrapped function was invoked. -/
def CircuitBreaker.runFailures (cb : CircuitBreaker) (e : String) :
    List ℚ → CircuitBreaker × List Bool
  | [] => (cb, [])
  | t :: ts =>
    let o := cb.call t (Except.error e : Except String String)
    let r := (o.breaker).runFailures e ts
    (r.1, o.invoked :: r.2)

/-- Invariant of every breaker reachable from `CircuitBreaker.init`: a
non-closed breaker has at least threshold-many recorded failures, and an open
breaker has a recorded failure time. -/
def CBInv (cb : CircuitBreaker) : Prop :=
  ((cb.state = CBState.opened ∨ cb.state = CBState.halfOpen) →
    cb.failure_threshold ≤ cb.failures) ∧
  (cb.state = CBState.opened → cb.last_failure_time ≠ none)

/-! ### Retry controller (lines 152-176) -/

/-- The retry parameters read from `error_handling.retry_config`
(lines 154-158); delays are in seconds (the source divides the configured
milliseconds by 1000). -/
structure RetryConfig where
  base_delay : ℚ
  max_delay : ℚ
  exponential_base : ℚ
  jitter_enabled : Bool

/-- Trace of one `_retry_with_backoff` run: the value returned or exception
re-raised (`none` when `max_retries = 0` makes the loop body never run, in
which case Python returns `None`), the number of invocations of the wrapped
function, and the backoff delays slept, in order. -/
structure RetryTrace (α : Type) where
  result : Option (Except String α)
  attempts : ℕ
  sleeps : List ℚ

/-- The delay computed before a retry (lines 167-173): exponential backoff
capped at the maximum, then scaled by `0.5 + random()` when jitter is
enabled; `draw` is the value returned by `random.random()`. -/
def backoffDelay (cfg : RetryConfig) (attempt : ℕ) (draw : ℚ) : ℚ :=
  let delay := min (cfg.base_delay * cfg.exponential_base ^ attempt) cfg.max_delay
  if cfg.jitter_enabled then delay * (1/2 + draw) else delay

/-- The `for attempt in range(max_retries)` loop of `_retry_with_backoff`
(lines 160-176).  `func i` is the behaviour of the wrapped coroutine on its
i-th invocation and `draws i` the jitter draw of that iteration.  The fuel
argument counts the remaining loop iterations. -/
def retryGo (cfg : RetryConfig) (max_retries : ℕ) (func : ℕ → Except String α)
    (draws : ℕ → ℚ) : ℕ → ℕ → RetryTrace α
  | _, 0 => { result := none, attempts := 0, sleeps := [] }
  | attempt, fuel + 1 =>
    match func attempt with
    | Except.ok v => { result := some (Except.ok v), attempts := 1, sleeps := [] }
    | Except.error e =>
      if attempt = max_retries - 1 then
        { result := some (Except.error e), attempts := 1, sleeps := [] }
      else
        let t := retryGo cfg max_retries func draws (attempt + 1) fuel
        { result := t.result, attempts := t.attempts + 1,
          sleeps := backoffDelay cfg attempt (draws attempt) :: t.sleeps }

/-- `_retry_with_backoff` (lines 152-176). -/
def _retry_with_backoff (cfg : RetryConfig) (func : ℕ → Except String α)
    (draws : ℕ → ℚ) (max_retries : ℕ) : RetryTrace α :=
  retryGo cfg max_retries func draws 0 max_retries

/-! ### Model invoker (lines 178-238) -/

/-- The provider dispatch of `_make_request` (lines 204-217): the branch taken
depends only on the provider string; the outcomes of the two provider calls
are passed in explicitly.  The rate-limiter polling loop (lines 206-209)
precedes the dispatch and does not influence which branch runs. -/
def _make_request (provider : String)
    (openrouter_response google_ai_response : Except String String) : Except String String :=
  if provider = "openrouter" then openrouter_response
  else if provider = "google_ai" then google_ai_response
  else Except.error ("Unknown provider: " ++ provider)

/-- The protected section of `call_ai_model` (lines 219-224): the model's
circuit breaker is fetched into the local `circuit_breaker` (line 221) but
never applied to anything — the code proceeds directly to
`_retry_with_backoff(_make_request, max_retries=3)` (line 224).  The embedding
keeps the dead binding as an unused argument. -/
def call_ai_model_protected (circuit_breaker : CircuitBreaker) (cfg : RetryConfig)
    (request : ℕ → Except String String) (draws : ℕ → ℚ) : RetryTrace String :=
  _retry_with_backoff cfg request draws 3

/-! ### Categorizer (lines 305-340) -/

/-- The `request_flow.context_limits` thresholds read on lines 309-315. -/
structure ContextLimits where
  deny_request : ℕ
  force_gemini_pro : ℕ
  force_thinking_ai : ℕ

/-- Python `str.lower()` on the characters of a message. -/
def lowerChars (l : List Char) : List Char := l.map Char.toLower

/-- Whether `needle` is a prefix of `hay` (character lists). -/
def startsWithL : List Char → List Char → Bool
  | _, [] => true
  | [], _ :: _ => false
  | c :: cs, d :: ds => c == d && startsWithL cs ds

/-- Python's substring test `needle in hay` on character lists. -/
def containsSub : List Char → List Char → Bool
  | [], needle => startsWithL [] needle
  | c :: t, needle => startsWithL (c :: t) needle || containsSub t needle

/-- `_contains_image` (lines 337-340). -/
def _contains_image (message : String) : Bool :=
  containsSub (lowerChars message.data) ("image:").data ||
    containsSub (lowerChars message.data) ("img:").data

/-- Python `str.strip()` on character lists. -/
def stripChars (l : List Char) : List Char :=
  ((l.dropWhile Char.isWhitespace).reverse.dropWhile Char.isWhitespace).reverse

/-- Python `str.upper()` on character lists. -/
def upperChars (l : List Char) : List Char := l.map Char.toUpper

/-- `categorize_request` (lines 305-335).  `categorizer_ai` is the behaviour
of the `call_ai_model('categorizer_ai', ...)` call of lines 322-326. -/
def categorize_request (limits : ContextLimits)
    (categorizer_ai : String → Except String String)
    (user_message : String) (context_tokens : ℕ) : Except String String :=
  if limits.deny_request < context_tokens then
    Except.error ("Request exceeds maximum token limit")
  else if limits.force_gemini_pro < context_tokens then Except.ok ("L")
  else if limits.force_thinking_ai < context_tokens then Except.ok ("L")
  else if _contains_image user_message then Except.ok ("L")
  else
    match categorizer_ai user_message with
    | Except.error e => Except.error e
    | Except.ok raw =>
      let category := String.mk (upperChars (stripChars raw.data))
      if category = "L" ∨ category = "M" ∨ category = "H" then Except.ok category
      else Except.ok ("H")

/-! ### Workflow executor (lines 342-410) -/

/-- A task dictionary (lines 376-379): target model, prompt template, optional
output variable (`none` models an absent key, `some ""` an empty value — both
are falsy at line 391), and per-call configuration overrides. -/
structure Task where
  model : String
  prompt : String
  output_variable : Option String
  config : List (String × String)

/-- A workflow step dictionary (lines 345-347): optional `type` tag (line 346
defaults an absent tag to `"inline"`) and a task list. -/
structure Step where
  type : Option String
  tasks : List Task

/-- The store of lines 390-392, `if output_variable:
state.set_variable(output_variable, result)`: the result is written only
under a truthy output variable name (absent and empty are both falsy). -/
def storeOutput (task : Task) (state : WorkflowState) (result : String) : WorkflowState :=
  match task.output_variable with
  | some ov => if ov = "" then state else state.set_variable ov result
  | none => state

/-- `_execute_task` (lines 374-410).  `call_model` is the behaviour of
`call_ai_model` (after its own retries and fallbacks) on a given model name
and prompt; the sampling configuration does not affect the control flow
modelled here.  On task failure, one compensating call to the failure
narrator model `ai_workers_failed_ai` is made (lines 400-410); its narration
is returned as the task's result, unless it also fails, in which case the
original error is re-raised. -/
def _execute_task (call_model : String → String → Except String String)
    (task : Task) (state : WorkflowState) : Except String (WorkflowState × String) :=
  let prompt := state.replace_variables task.prompt
  match call_model task.model prompt with
  | Except.ok result =>
    Except.ok (storeOutput task state result, result)
  | Except.error e =>
    match call_model ("ai_workers_failed_ai")
        ("Task failed: " ++ e ++ ". Model: " ++ task.model ++ ". Prompt: " ++
          String.mk (prompt.data.take 200) ++ "...") with
    | Except.ok error_message => Except.ok (state, error_message)
    | Except.error _ => Except.error e

/-- The `'inline'` branch of `execute_workflow` (lines 364-367): tasks run one
at a time in listed order, later tasks seeing earlier tasks' state. -/
def runInline (call_model : String → String → Except String String) :
    List Task → WorkflowState → Except String WorkflowState
  | [], state => Except.ok state
  | task :: rest, state =>
    match _execute_task call_model task state with
    | Except.ok (state2, _) => runInline call_model rest state2
    | Except.error e => Except.error e

/-- The `'linear'` branch of `execute_workflow` (lines 351-362):
`asyncio.gather(..., return_exceptions=True)` runs every task to completion
even when a sibling fails, collecting per-task outcomes.  The embedding fixes
the listed-order interleaving of the cooperative scheduler; a failed task
contributes its exception and leaves the shared state untouched. -/
def runLinear (call_model : String → String → Except String String) :
    List Task → WorkflowState → WorkflowState × List (Except String String)
  | [], state => (state, [])
  | task :: rest, state =>
    match _execute_task call_model task state with
    | Except.ok (state2, r) =>
      let out := runLinear call_model rest state2
      (out.1, Except.ok r :: out.2)
    | Except.error e =>
      let out := runLinear call_model rest state
      (out.1, Except.error e :: out.2)

/-- The error scan of lines 359-362: the first exception among the gathered
results, in index order. -/
def firstError : List (Except String String) → Option String
  | [] => none
  | Except.error e :: _ => some e
  | Except.ok _ :: rest => firstError rest

/-- `execute_workflow` (lines 342-372): steps execute strictly in order; a
step tagged `'linear'` fans its tasks out and re-raises the first failure, a
step tagged `'inline'` (also the default for an untagged step) runs its tasks
sequentially, and any other tag raises `Unknown step type`. -/
def execute_workflow (call_model : String → String → Except String String) :
    List Step → WorkflowState → Except String WorkflowState
  | [], state => Except.ok state
  | step :: rest, state =>
    let step_type := step.type.getD ("inline")
    if step_type = "linear" then
      let out := runLinear call_model step.tasks state
      match firstError out.2 with
      | some e => Except.error e
      | none => execute_workflow call_model rest out.1
    else if step_type = "inline" then
      match runInline call_model step.tasks state with
      | Except.ok state2 => execute_workflow call_model rest state2
      | Except.error e => Except.error e
    else Except.error ("Unknown step type: " ++ step_type)

/-! ### Request router, high tier (lines 441-492) -/

/-- Rendering of the non-seed result variables (line 488); abstraction of
`json.dumps(results, indent=2)` — no claim depends on its exact format. -/
def dumpResults (vars : List (String × String)) : String :=
  String.intercalate "\n" (vars.map (fun p => p.1 ++ ": " ++ p.2))

/-- The high-tier tail of `process_request` (lines 444-492), entered after the
acknowledgement call succeeded with text `fast_response`.  `workflow_parse`
is the outcome of `json.loads(self._extract_json(...)).get('workflow', [])`
on the planner's output (lines 458-469): `Except.error` models the
`json.JSONDecodeError` caught on line 470.  A parse failure and a workflow
execution failure are both converted into degraded response strings
(lines 470-472 and 490-492). -/
def process_request_high (call_model : String → String → Except String String)
    (fast_response : String) (user_message : String)
    (workflow_parse : Except String (List Step)) : String :=
  match workflow_parse with
  | Except.error _ => "Error: Could not create workflow. " ++ fast_response
  | Except.ok workflow_steps =>
    let state : WorkflowState := { vars := [], metadata := [] }
    let state := state.set_variable ("user_message") user_message
    match execute_workflow call_model workflow_steps state with
    | Except.error e => fast_response ++ "\n\nError during execution: " ++ e
    | Except.ok final_state =>
      match final_state.get_variable ("completion_message") with
      | some completion_msg => fast_response ++ "\n\n" ++ completion_msg
      | none =>
        let results := final_state.vars.filter (fun p => p.1 != "user_message")
        fast_response ++ "\n\nResults:\n" ++ dumpResults results

/-! ### Helper lemmas -/

theorem splitAtClose_append (after : List Char) :
    ∀ (name : List Char), '}' ∉ name →
      splitAtClose (name ++ '}' :: after) = some (name, after) := by
  intro name
  induction name with
  | nil => intro _; simp [splitAtClose]
  | cons c name ih =>
    intro h
    have hc : ¬ (c = '}') := fun hh => h (by simp [hh])
    have hm : '}' ∉ name := fun hm => h (List.mem_cons_of_mem _ hm)
    simp [splitAtClose, hc, ih hm]

theorem replaceVarsFuel_nil (vars : String → Option String) :
    ∀ fuel, replaceVarsFuel vars fuel [] = []
  | 0 => rfl
  | _ + 1 => rfl

theorem replaceVarsFuel_spec (vars : String → Option String) (name : List Char)
    (hname : name ≠ []) (hclose : '}' ∉ name) :
    ∀ (pre : List Char) (fuel : ℕ), '{' ∉ pre → pre.length < fuel →
      replaceVarsFuel vars fuel (pre ++ '{' :: (name ++ ['}'])) =
        pre ++ (match vars (String.mk name) with
                | some v => v.data
                | none => '{' :: (name ++ ['}'])) := by
  intro pre
  induction pre with
  | nil =>
    intro fuel _ hfuel
    match fuel, hfuel with
    | f + 1, _ =>
      have hsplit : splitAtClose (name ++ ['}']) = some (name, []) := by
        have := splitAtClose_append [] name hclose
        simpa using this
      simp [replaceVarsFuel, hsplit, hname, replaceVarsFuel_nil]
  | cons c pre ih =>
    intro fuel hpre hfuel
    have hc : ¬ (c = '{') := fun hh => hpre (by simp [hh])
    have hm : '{' ∉ pre := fun hm => hpre (List.mem_cons_of_mem _ hm)
    match fuel, hfuel with
    | f + 1, hfuel =>
      have hlen : pre.length < f := by
        simp only [List.length_cons] at hfuel; omega
      simp [replaceVarsFuel, hc, ih f hm hlen]

/-! ### C9: variable substitution -/

/-- C9: `replace_variables` substitutes a set variable's string form for its
placeholder and leaves the placeholder of an unset variable verbatim: for any
state, any brace-free prefix and any nonempty brace-free name, substituting in
`pre { name }` yields `pre` followed by the variable's value when set, and the
untouched placeholder when unset (totally, never raising). -/
theorem replace_variables_spec (s : WorkflowState) (pre name : List Char)
    (hpre : '{' ∉ pre) (hname : name ≠ []) (hclose : '}' ∉ name) :
    s.replace_variables (String.mk (pre ++ '{' :: (name ++ ['}']))) =
      String.mk (pre ++ (match s.get_variable (String.mk name) with
                         | some v => v.data
                         | none => '{' :: (name ++ ['}']))) := by
  unfold WorkflowState.replace_variables
  have hdata : (String.mk (pre ++ '{' :: (name ++ ['}']))).data =
      pre ++ '{' :: (name ++ ['}']) := rfl
  rw [hdata, replaceVarsFuel_spec (fun n => s.get_variable n) name hname hclose pre _ hpre
    (by simp [List.length_append])]

/-- Witness for C9 at the spec's concrete example. -/
theorem replace_variables_spec_witness :
    ({ vars := [("name", "World")], metadata := [] } : WorkflowState).replace_variables
        ("Hello {name}") = "Hello World" ∧
    ({ vars := [], metadata := [] } : WorkflowState).replace_variables
        ("Hello {name}") = "Hello {name}" := by
  constructor
  · exact replace_variables_spec { vars := [("name", "World")], metadata := [] }
      ("Hello ").data ("name").data (by decide) (by decide) (by decide)
  · exact replace_variables_spec { vars := [], metadata := [] }
      ("Hello ").data ("name").data (by decide) (by decide) (by decide)

/-! ### C10: tasks without an output variable leave state unchanged -/

/-- C10: a task whose definition has no `output_variable` (or a falsy, empty
one) leaves the workflow state's variable mapping unchanged, on the success
path and on the narrated-failure path alike. -/
theorem execute_task_no_output_variable_frame
    (call_model : String → String → Except String String)
    (task : Task) (state : WorkflowState)
    (hov : task.output_variable = none ∨ task.output_variable = some ("")) :
    ∀ (s2 : WorkflowState) (r : String),
      _execute_task call_model task state = Except.ok (s2, r) → s2.vars = state.vars := by
  have hstore : ∀ result, storeOutput task state result = state := by
    intro result
    rcases hov with hov | hov <;> simp [storeOutput, hov]
  intro s2 r h
  simp only [_execute_task] at h
  split at h
  · rw [hstore] at h
    simp at h
    obtain ⟨h1, _⟩ := h
    subst h1
    rfl
  · split at h
    · simp at h
      obtain ⟨h1, _⟩ := h
      subst h1
      rfl
    · exact absurd h (by simp)

/-- Witness for C10 at a concrete task without an output variable. -/
theorem execute_task_no_output_variable_frame_witness :
    (_execute_task (fun _ _ => Except.ok ("out"))
        { model := "m", prompt := "hi", output_variable := none, config := [] }
        { vars := [("x", "1")], metadata := [] } =
      Except.ok (({ vars := [("x", "1")], metadata := [] } : WorkflowState), "out")) ∧
    ({ vars := [("x", "1")], metadata := [] } : WorkflowState).vars =
      ({ vars := [("x", "1")], metadata := [] } : WorkflowState).vars :=
  ⟨rfl, execute_task_no_output_variable_frame (fun _ _ => Except.ok ("out"))
    { model := "m", prompt := "hi", output_variable := none, config := [] }
    { vars := [("x", "1")], metadata := [] } (Or.inl rfl)
    { vars := [("x", "1")], metadata := [] } ("out") rfl⟩

/-! ### C2: image marker categorization -/

/-- C2 (amended): for a message containing an embedded-image marker and
context tokens not exceeding the deny or force thresholds,
`categorize_request` returns the category "L" (the image/deep path),
short-circuiting the categorizer model — not "H" as the spec states. -/
theorem categorize_request_image_L (limits : ContextLimits)
    (categorizer_ai : String → Except String String)
    (msg : String) (ctx : ℕ)
    (h1 : ctx ≤ limits.deny_request) (h2 : ctx ≤ limits.force_gemini_pro)
    (h3 : ctx ≤ limits.force_thinking_ai) (himg : _contains_image msg = true) :
    categorize_request limits categorizer_ai msg ctx = Except.ok ("L") := by
  simp [categorize_request, himg, Nat.not_lt.mpr h1, Nat.not_lt.mpr h2, Nat.not_lt.mpr h3]

/-- Witness for C2 at a concrete image-bearing message. -/
theorem categorize_request_image_L_witness :
    categorize_request
        { deny_request := 10000, force_gemini_pro := 5000, force_thinking_ai := 2000 }
        (fun _ => Except.ok ("M")) ("Please refine this image: sunset.png") 120 =
      Except.ok ("L") :=
  categorize_request_image_L _ _ _ _ (by decide) (by decide) (by decide) (by decide)

/-- Counterexample to C2 as stated: a message containing "image:" (with small
context) is categorized "L", not "H" — even when the categorizer model would
have said "H". -/
theorem categorize_request_image_counterexample :
    categorize_request
        { deny_request := 10000, force_gemini_pro := 5000, force_thinking_ai := 2000 }
        (fun _ => Except.ok ("H")) ("image: a cat") 0 = Except.ok ("L") ∧
    (Except.ok ("L") : Except String String) ≠ Except.ok ("H") := by
  refine ⟨rfl, ?_⟩
  intro h
  injection h with h2
  exact absurd h2 (by decide)

/-! ### C3: workflow step tags -/

theorem runInline_append (call_model : String → String → Except String String) :
    ∀ (a b : List Task) (s : WorkflowState),
      runInline call_model (a ++ b) s =
        match runInline call_model a s with
        | Except.ok s2 => runInline call_model b s2
        | Except.error e => Except.error e := by
  intro a
  induction a with
  | nil => intro b s; rfl
  | cons task rest ih =>
    intro b s
    simp only [List.cons_append, runInline]
    cases _execute_task call_model task s with
    | ok p => exact ih b p.1
    | error e => rfl

/-- C3 (amended): the Workflow Executor accepts exactly the step tags
`'linear'` and `'inline'` (with an absent tag defaulting to `'inline'`), not
`'sequential'`/`'parallel'`: a workflow whose steps are all tagged `'inline'`
runs all tasks one at a time in listed order, an untagged step behaves as
`'inline'`, and a step carrying any other tag — including `'sequential'` —
fails with an unknown-step-type error. -/
theorem execute_workflow_step_tags (call_model : String → String → Except String String)
    (st : String) (tasks : List Task) (state : WorkflowState)
    (h1 : st ≠ "linear") (h2 : st ≠ "inline") :
    (execute_workflow call_model [{ type := some st, tasks := tasks }] state =
       Except.error ("Unknown step type: " ++ st)) ∧
    (∀ steps : List Step, (∀ s ∈ steps, s.type.getD ("inline") = "inline") →
       execute_workflow call_model steps state =
         runInline call_model ((steps.map Step.tasks).flatten) state) ∧
    (execute_workflow call_model [{ type := none, tasks := tasks }] state =
       execute_workflow call_model [{ type := some ("inline"), tasks := tasks }] state) := by
  refine ⟨?_, ?_, rfl⟩
  · simp [execute_workflow, h1, h2]
  · intro steps
    induction steps generalizing state with
    | nil => intro _; rfl
    | cons step rest ih =>
      intro hall
      have hstep : step.type.getD ("inline") = "inline" := hall step (by simp)
      have hrest : ∀ s ∈ rest, s.type.getD ("inline") = "inline" :=
        fun s hs => hall s (by simp [hs])
      simp only [execute_workflow, hstep, List.map_cons, List.flatten_cons,
        runInline_append call_model step.tasks ((rest.map Step.tasks).flatten) state]
      rw [if_pos trivial]
      cases runInline call_model step.tasks state with
      | ok s2 => exact ih s2 hrest  -- hmm argument order
      | error e => rfl

/-- Witness for C3's amended theorem at a concrete unknown tag. -/
theorem execute_workflow_step_tags_witness :
    execute_workflow (fun _ _ => Except.ok ("y"))
        [{ type := some ("seq"), tasks := [] }] { vars := [("a", "b")], metadata := [] } =
      Except.error ("Unknown step type: seq") :=
  (execute_workflow_step_tags (fun _ _ => Except.ok ("y")) ("seq") []
    { vars := [("a", "b")], metadata := [] } (by decide) (by decide)).1

/-- Counterexample to C3 as stated: a step tagged `'sequential'` (or
`'parallel'`) does not execute — it raises the unknown-step-type error. -/
theorem step_tag_sequential_counterexample :
    execute_workflow (fun _ _ => Except.ok (""))
        [{ type := some ("sequential"), tasks := [] }] { vars := [], metadata := [] } =
      Except.error ("Unknown step type: sequential") ∧
    execute_workflow (fun _ _ => Except.ok (""))
        [{ type := some ("parallel"), tasks := [] }] { vars := [], metadata := [] } =
      Except.error ("Unknown step type: parallel") := ⟨rfl, rfl⟩


/-! ### C4: token bucket invariants -/

theorem consume_valid (tb : TokenBucket) (now n : ℚ)
    (hcap : 0 ≤ tb.capacity) (h0 : 0 ≤ tb.tokens)
    (hrate : 0 ≤ tb.refill_rate) (htime : tb.last_refill ≤ now) (hn : 0 ≤ n) :
    0 ≤ (tb.consume now n).1.tokens ∧ (tb.consume now n).1.tokens ≤ tb.capacity ∧
    (tb.consume now n).1.capacity = tb.capacity ∧
    (tb.consume now n).1.refill_rate = tb.refill_rate ∧
    (tb.consume now n).1.last_refill = now := by
  have he : 0 ≤ (now - tb.last_refill) * tb.refill_rate :=
    mul_nonneg (sub_nonneg.mpr htime) hrate
  have hmin0 : 0 ≤ min tb.capacity (tb.tokens + (now - tb.last_refill) * tb.refill_rate) :=
    le_min hcap (by linarith)
  have hminc : min tb.capacity (tb.tokens + (now - tb.last_refill) * tb.refill_rate) ≤
      tb.capacity := min_le_left _ _
  simp only [TokenBucket.consume, TokenBucket._refill]
  split_ifs with hcond
  · dsimp only
    exact ⟨by linarith, by linarith, rfl, rfl, rfl⟩
  · dsimp only
    exact ⟨hmin0, hminc, rfl, rfl, rfl⟩

theorem consumeSeq_valid : ∀ (calls : List (ℚ × ℚ)) (tb : TokenBucket),
    0 ≤ tb.capacity → 0 ≤ tb.tokens → tb.tokens ≤ tb.capacity → 0 ≤ tb.refill_rate →
    CallsOK tb.last_refill calls →
    0 ≤ (tb.consumeSeq calls).tokens ∧ (tb.consumeSeq calls).tokens ≤ tb.capacity := by
  intro calls
  induction calls with
  | nil => exact fun tb _ h2 h3 _ _ => ⟨h2, h3⟩
  | cons c rest ih =>
    intro tb hcap h0 h1 hrate hok
    obtain ⟨now, n⟩ := c
    obtain ⟨htime, hn, hrest⟩ := hok
    obtain ⟨p0, p1, pcap, prate, plast⟩ := consume_valid tb now n hcap h0 hrate htime hn
    have hvalid := ih (tb.consume now n).1 (by rw [pcap]; exact hcap) p0
      (by rw [pcap]; exact p1) (by rw [prate]; exact hrate) (by rw [plast]; exact hrest)
    exact ⟨hvalid.1, pcap ▸ hvalid.2⟩

/-- C4: a `consume` call keeps the balance within `[0, capacity]`, succeeds
and decrements by `n` exactly when the post-refill balance covers `n`,
otherwise fails leaving the bucket exactly as the lazy refill left it; and
over any well-formed sequence of `consume` calls the balance stays within
`[0, capacity]`. -/
theorem token_bucket_spec (tb : TokenBucket) (now n : ℚ)
    (hcap : 0 ≤ tb.capacity) (h0 : 0 ≤ tb.tokens) (h1 : tb.tokens ≤ tb.capacity)
    (hrate : 0 ≤ tb.refill_rate) (htime : tb.last_refill ≤ now) (hn : 0 ≤ n) :
    (0 ≤ (tb.consume now n).1.tokens ∧ (tb.consume now n).1.tokens ≤ tb.capacity) ∧
    ((tb.consume now n).2 = true ↔ n ≤ (tb._refill now).tokens) ∧
    ((tb.consume now n).2 = true →
      (tb.consume now n).1.tokens = (tb._refill now).tokens - n) ∧
    ((tb.consume now n).2 = false → (tb.consume now n).1 = tb._refill now) ∧
    (∀ calls : List (ℚ × ℚ), CallsOK tb.last_refill calls →
      0 ≤ (tb.consumeSeq calls).tokens ∧ (tb.consumeSeq calls).tokens ≤ tb.capacity) := by
  refine ⟨?_, ?_, ?_, ?_, fun calls hok => consumeSeq_valid calls tb hcap h0 h1 hrate hok⟩
  · obtain ⟨p0, p1, _, _, _⟩ := consume_valid tb now n hcap h0 hrate htime hn
    exact ⟨p0, p1⟩
  · simp only [TokenBucket.consume]
    split_ifs with hcond
    · simpa using hcond
    · simpa using hcond
  · simp only [TokenBucket.consume]
    split_ifs with hcond
    · exact fun _ => rfl
    · exact fun h => absurd h (by simp)
  · simp only [TokenBucket.consume]
    split_ifs with hcond
    · exact fun h => absurd h (by simp)
    · exact fun _ => rfl

/-- Witness for C4 at a concrete bucket and call. -/
theorem token_bucket_spec_witness :
    0 ≤ (((⟨10, 10, 1, 0⟩ : TokenBucket).consume 1 3).1).tokens ∧
    (((⟨10, 10, 1, 0⟩ : TokenBucket).consume 1 3).1).tokens ≤
      (⟨10, 10, 1, 0⟩ : TokenBucket).capacity :=
  (token_bucket_spec ⟨10, 10, 1, 0⟩ 1 3 (show (0 : ℚ) ≤ 10 by norm_num)
    (show (0 : ℚ) ≤ 10 by norm_num) (show (10 : ℚ) ≤ 10 by norm_num)
    (show (0 : ℚ) ≤ 1 by norm_num) (show (0 : ℚ) ≤ 1 by norm_num)
    (show (0 : ℚ) ≤ 3 by norm_num)).1

/-! ### C6: retry backoff delays -/

theorem retryGo_sleeps_get (cfg : RetryConfig) (max_retries : ℕ)
    (func : ℕ → Except String String) (draws : ℕ → ℚ) :
    ∀ (j attempt fuel : ℕ),
      (∀ i, i ≤ j → ∃ e, func (attempt + i) = Except.error e) →
      attempt + j < max_retries - 1 → j < fuel →
      (retryGo cfg max_retries func draws attempt fuel).sleeps[j]? =
        some (backoffDelay cfg (attempt + j) (draws (attempt + j))) := by
  intro j
  induction j with
  | zero =>
    intro attempt fuel hfail hlt hfuel
    match fuel, hfuel with
    | f + 1, _ =>
      obtain ⟨e, he⟩ := hfail 0 (le_refl 0)
      rw [Nat.add_zero] at he
      have hne : ¬ (attempt = max_retries - 1) := by omega
      simp [retryGo, he, hne]
  | succ j ih =>
    intro attempt fuel hfail hlt hfuel
    match fuel, hfuel with
    | f + 1, hfuel =>
      obtain ⟨e, he⟩ := hfail 0 (Nat.zero_le _)
      rw [Nat.add_zero] at he
      have hne : ¬ (attempt = max_retries - 1) := by omega
      have hrec := ih (attempt + 1) f
        (fun i hi => by
          obtain ⟨e2, he2⟩ := hfail (i + 1) (by omega)
          exact ⟨e2, by rw [show attempt + 1 + i = attempt + (i + 1) from by omega]; exact he2⟩)
        (by omega) (by omega)
      have harith : attempt + 1 + j = attempt + (j + 1) := by omega
      rw [harith] at hrec
      simp only [retryGo, he, hne, if_false, List.getElem?_cons_succ]
      exact hrec

/-- C6 (amended): the delay slept before retry attempt k (0-indexed, k ≥ 1)
equals `min(baseDelay * multiplier^(k-1), maxDelay)` when jitter is disabled;
when jitter is enabled it equals that value scaled by the factor
`0.5 + random()`, which lies in `[0.5, 1.5)` — not `[0.5, 1.0]` — for every
possible random draw. -/
theorem retry_backoff_delay_spec (cfg : RetryConfig) (max_retries k : ℕ)
    (func : ℕ → Except String String) (draws : ℕ → ℚ)
    (hk : 1 ≤ k) (hkm : k ≤ max_retries - 1)
    (hfail : ∀ i, i < k → ∃ e, func i = Except.error e) :
    ((_retry_with_backoff cfg func draws max_retries).sleeps[k - 1]? =
      some (backoffDelay cfg (k - 1) (draws (k - 1)))) ∧
    (cfg.jitter_enabled = false →
      backoffDelay cfg (k - 1) (draws (k - 1)) =
        min (cfg.base_delay * cfg.exponential_base ^ (k - 1)) cfg.max_delay) ∧
    (cfg.jitter_enabled = true →
      backoffDelay cfg (k - 1) (draws (k - 1)) =
        min (cfg.base_delay * cfg.exponential_base ^ (k - 1)) cfg.max_delay *
          (1/2 + draws (k - 1)) ∧
      (0 ≤ draws (k - 1) → draws (k - 1) < 1 →
        1/2 ≤ 1/2 + draws (k - 1) ∧ 1/2 + draws (k - 1) < 3/2)) := by
  refine ⟨?_, ?_, ?_⟩
  · have hmain := retryGo_sleeps_get cfg max_retries func draws (k - 1) 0 max_retries
      (fun i hi => by
        obtain ⟨e, he⟩ := hfail i (by omega)
        exact ⟨e, by simpa using he⟩)
      (by omega) (by omega)
    simpa [_retry_with_backoff] using hmain
  · intro hj; simp [backoffDelay, hj]
  · intro hj
    exact ⟨by simp [backoffDelay, hj], fun hr0 hr1 => ⟨by linarith, by linarith⟩⟩

/-- Witness for C6's amended theorem at a concrete configuration. -/
theorem retry_backoff_delay_spec_witness :
    (_retry_with_backoff
        { base_delay := 1, max_delay := 100, exponential_base := 2, jitter_enabled := false }
        (fun _ => (Except.error ("boom") : Except String String)) (fun _ => 0) 3).sleeps[1]? =
      some (backoffDelay
        { base_delay := 1, max_delay := 100, exponential_base := 2, jitter_enabled := false }
        1 0) :=
  (retry_backoff_delay_spec
    { base_delay := 1, max_delay := 100, exponential_base := 2, jitter_enabled := false }
    3 2 (fun _ => (Except.error ("boom") : Except String String)) (fun _ => 0)
    (by omega) (by omega) (fun i _ => ⟨"boom", rfl⟩)).1

/-- Counterexample to C6 as stated: with jitter enabled and draw 3/4, the
first slept delay is the unjittered delay scaled by 5/4, which exceeds the
unjittered delay scaled by the claimed maximal factor 1.0. -/
theorem retry_jitter_factor_counterexample :
    ((_retry_with_backoff
        { base_delay := 1, max_delay := 100, exponential_base := 2, jitter_enabled := true }
        (fun _ => (Except.error ("e") : Except String String)) (fun _ => 3/4) 3).sleeps[0]? =
      some (min ((1 : ℚ) * 2 ^ 0) 100 * (1/2 + 3/4))) ∧
    ¬ (min ((1 : ℚ) * 2 ^ 0) 100 * (1/2 + 3/4) ≤ min ((1 : ℚ) * 2 ^ 0) 100 * 1) := by
  constructor
  · rfl
  · rw [show ((1 : ℚ) * 2 ^ 0) = 1 from by norm_num,
      min_eq_left (by norm_num : (1 : ℚ) ≤ 100)]
    norm_num

/-! ### C7: unknown provider is retried, not failed fast -/

/-- C7 (amended): a call whose configured provider string is unrecognized
raises the unknown-provider error from inside the retried request function,
so `call_ai_model` performs all 3 retry attempts with 2 backoff sleeps before
that error reaches the fallback/propagation stage (only the unknown-model
check fails fast before the retry loop). -/
theorem unknown_provider_retried (cfg : RetryConfig) (draws : ℕ → ℚ) (provider : String)
    (openrouter_response google_ai_response : ℕ → Except String String)
    (h1 : provider ≠ "openrouter") (h2 : provider ≠ "google_ai") :
    ((_retry_with_backoff cfg
        (fun i => _make_request provider (openrouter_response i) (google_ai_response i))
        draws 3).result = some (Except.error ("Unknown provider: " ++ provider))) ∧
    ((_retry_with_backoff cfg
        (fun i => _make_request provider (openrouter_response i) (google_ai_response i))
        draws 3).attempts = 3) ∧
    ((_retry_with_backoff cfg
        (fun i => _make_request provider (openrouter_response i) (google_ai_response i))
        draws 3).sleeps.length = 2) := by
  have hfunc : (fun i => _make_request provider (openrouter_response i) (google_ai_response i)) =
      fun _ => Except.error ("Unknown provider: " ++ provider) := by
    funext i
    simp [_make_request, h1, h2]
  rw [hfunc]
  exact ⟨rfl, rfl, rfl⟩

/-- Witness for C7's amended theorem at a concrete unknown provider. -/
theorem unknown_provider_retried_witness :
    (_retry_with_backoff
        { base_delay := 1, max_delay := 100, exponential_base := 2, jitter_enabled := false }
        (fun i => _make_request ("aws") (Except.ok ("a")) (Except.ok ("b")))
        (fun _ => 0) 3).result =
      some (Except.error ("Unknown provider: " ++ "aws")) :=
  (unknown_provider_retried
    { base_delay := 1, max_delay := 100, exponential_base := 2, jitter_enabled := false }
    (fun _ => 0) ("aws") (fun _ => Except.ok ("a")) (fun _ => Except.ok ("b"))
    (by decide) (by decide)).1

/-- Counterexample to C7 as stated: an unknown-provider call performs 2
backoff sleeps and 3 attempts — not zero sleeps and a single fast failure. -/
theorem unknown_provider_fail_fast_counterexample :
    ((_retry_with_backoff
        { base_delay := 1, max_delay := 100, exponential_base := 2, jitter_enabled := false }
        (fun _ => _make_request ("azure") (Except.ok ("a")) (Except.ok ("b")))
        (fun _ => 0) 3).sleeps.length = 2) ∧ ((2 : ℕ) ≠ 0) ∧
    ((_retry_with_backoff
        { base_delay := 1, max_delay := 100, exponential_base := 2, jitter_enabled := false }
        (fun _ => _make_request ("azure") (Except.ok ("a")) (Except.ok ("b")))
        (fun _ => 0) 3).attempts = 3) ∧ ((3 : ℕ) ≠ 1) :=
  ⟨rfl, by decide, rfl, by decide⟩

/-! ### C1: the circuit breaker is fetched but never applied -/

/-- C1 (code bug): with the model's circuit breaker open and its timeout not
elapsed, `call_ai_model` still invokes the provider request 3 times and
propagates the provider's error — the breaker fetched on line 221 is never
applied, so no call fails fast with the breaker-open error; the breaker
itself, had it been consulted at that instant, would have refused to invoke
the wrapped call. -/
theorem circuit_breaker_never_consulted :
    ((call_ai_model_protected
        { failure_threshold := 5, timeout_seconds := 60, failures := 5,
          last_failure_time := some 100, state := CBState.opened }
        { base_delay := 1, max_delay := 100, exponential_base := 2, jitter_enabled := false }
        (fun _ => Except.error ("upstream failure")) (fun _ => 0)).attempts = 3) ∧
    ((call_ai_model_protected
        { failure_threshold := 5, timeout_seconds := 60, failures := 5,
          last_failure_time := some 100, state := CBState.opened }
        { base_delay := 1, max_delay := 100, exponential_base := 2, jitter_enabled := false }
        (fun _ => Except.error ("upstream failure")) (fun _ => 0)).result =
      some (Except.error ("upstream failure"))) ∧
    ((call_ai_model_protected
        { failure_threshold := 5, timeout_seconds := 60, failures := 5,
          last_failure_time := some 100, state := CBState.opened }
        { base_delay := 1, max_delay := 100, exponential_base := 2, jitter_enabled := false }
        (fun _ => Except.error ("upstream failure")) (fun _ => 0)).result ≠
      some (Except.error ("Circuit breaker is OPEN"))) ∧
    ((({ failure_threshold := 5, timeout_seconds := 60, failures := 5,
         last_failure_time := some 100, state := CBState.opened } : CircuitBreaker).call
        (100 : ℚ) (Except.error ("upstream failure") : Except String String)).invoked =
      false) ∧
    ((({ failure_threshold := 5, timeout_seconds := 60, failures := 5,
         last_failure_time := some 100, state := CBState.opened } : CircuitBreaker).call
        (100 : ℚ) (Except.error ("upstream failure") : Except String String)).result =
      Except.error ("Circuit breaker is OPEN")) := by
  refine ⟨rfl, rfl, ?_, ?_, ?_⟩
  · intro h
    injection h with h2
    injection h2 with h3
    exact absurd h3 (by decide)
  · simp only [CircuitBreaker.call]
    rw [if_neg (by norm_num)]
  · simp only [CircuitBreaker.call]
    rw [if_neg (by norm_num)]


/-! ### C8: high-tier failures degrade to a response, never re-raise -/

theorem startsWithL_append : ∀ (needle rest : List Char),
    startsWithL (needle ++ rest) needle = true := by
  intro needle
  induction needle with
  | nil => intro rest; simp [startsWithL]
  | cons c cs ih => intro rest; simp [startsWithL, ih rest]

theorem containsSub_of_startsWith (hay needle : List Char)
    (h : startsWithL hay needle = true) : containsSub hay needle = true := by
  cases hay with
  | nil => exact h
  | cons c t => simp [containsSub, h]

theorem containsSub_append (pre mid suf : List Char) :
    containsSub (pre ++ (mid ++ suf)) mid = true := by
  induction pre with
  | nil => exact containsSub_of_startsWith _ _ (startsWithL_append mid suf)
  | cons c pre ih => simp [containsSub, ih]

/-- C8: on the high-tier path, after the acknowledgement call succeeded with
text `fast_response`, a planner-JSON parse failure and a workflow execution
failure are each caught and converted into a returned string that contains
the acknowledgement text plus an explanatory note — never re-raised to the
caller. -/
theorem high_tier_failures_degraded (call_model : String → String → Except String String)
    (fast_response user_message : String) (workflow_parse : Except String (List Step)) :
    (∀ e, workflow_parse = Except.error e →
       process_request_high call_model fast_response user_message workflow_parse =
         "Error: Could not create workflow. " ++ fast_response ∧
       containsSub (process_request_high call_model fast_response user_message
           workflow_parse).data fast_response.data = true) ∧
    (∀ steps e, workflow_parse = Except.ok steps →
       execute_workflow call_model steps
           (WorkflowState.set_variable { vars := [], metadata := [] } ("user_message")
             user_message) = Except.error e →
       process_request_high call_model fast_response user_message workflow_parse =
         fast_response ++ "\n\nError during execution: " ++ e ∧
       containsSub (process_request_high call_model fast_response user_message
           workflow_parse).data fast_response.data = true) := by
  constructor
  · intro e hpe
    subst hpe
    refine ⟨rfl, ?_⟩
    show containsSub ("Error: Could not create workflow. " ++ fast_response).data
      fast_response.data = true
    rw [String.data_append]
    have hc := containsSub_append ("Error: Could not create workflow. ").data
      fast_response.data []
    simpa using hc
  · intro steps e hpe hex
    subst hpe
    have hres : process_request_high call_model fast_response user_message (Except.ok steps) =
        fast_response ++ "\n\nError during execution: " ++ e := by
      simp only [process_request_high]
      rw [hex]
    refine ⟨hres, ?_⟩
    rw [hres, String.data_append, String.data_append, List.append_assoc]
    exact containsSub_append [] fast_response.data _

/-- Witness for C8 at a concrete parse failure. -/
theorem high_tier_failures_degraded_witness :
    process_request_high (fun _ _ => Except.ok ("r")) ("ACK") ("hi")
        (Except.error ("bad json")) =
      "Error: Could not create workflow. " ++ "ACK" ∧
    containsSub (process_request_high (fun _ _ => Except.ok ("r")) ("ACK") ("hi")
        (Except.error ("bad json"))).data ("ACK").data = true :=
  (high_tier_failures_degraded (fun _ _ => Except.ok ("r")) ("ACK") ("hi")
    (Except.error ("bad json"))).1 ("bad json") rfl


/-! ### C5: circuit breaker state machine -/

theorem call_closed (cb : CircuitBreaker) (now : ℚ) (o : Except String String)
    (h : cb.state = CBState.closed) : cb.call now o = cb.callThrough now o := by
  simp [CircuitBreaker.call, h]

theorem call_halfOpen (cb : CircuitBreaker) (now : ℚ) (o : Except String String)
    (h : cb.state = CBState.halfOpen) : cb.call now o = cb.callThrough now o := by
  simp [CircuitBreaker.call, h]

theorem call_open_fast (cb : CircuitBreaker) (now t : ℚ) (o : Except String String)
    (h : cb.state = CBState.opened) (hl : cb.last_failure_time = some t)
    (ht : ¬ (now - t > cb.timeout_seconds)) :
    cb.call now o =
      { breaker := cb, result := Except.error ("Circuit breaker is OPEN"),
        invoked := false } := by
  simp [CircuitBreaker.call, h, hl, ht]

theorem call_open_timeout (cb : CircuitBreaker) (now t : ℚ) (o : Except String String)
    (h : cb.state = CBState.opened) (hl : cb.last_failure_time = some t)
    (ht : now - t > cb.timeout_seconds) :
    cb.call now o =
      CircuitBreaker.callThrough { cb with state := CBState.halfOpen } now o := by
  simp [CircuitBreaker.call, h, hl, ht]

theorem callThrough_ok (cb : CircuitBreaker) (now : ℚ) (v : String) :
    cb.callThrough now (Except.ok v : Except String String) =
      { breaker := if cb.state = CBState.halfOpen
          then { cb with state := CBState.closed, failures := 0 } else cb,
        result := Except.ok v, invoked := true } := rfl

theorem callThrough_error (cb : CircuitBreaker) (now : ℚ) (e : String) :
    cb.callThrough now (Except.error e : Except String String) =
      { breaker := if cb.failure_threshold ≤ cb.failures + 1
          then { cb with
                  failures := cb.failures + 1,
                  last_failure_time := some now,
                  state := CBState.opened }
          else { cb with
                  failures := cb.failures + 1,
                  last_failure_time := some now },
        result := Except.error e, invoked := true } := rfl

theorem CBInv_init (T : ℕ) (timeout : ℚ) : CBInv (CircuitBreaker.init T timeout) := by
  constructor
  · intro h
    rcases h with h | h <;> simp [CircuitBreaker.init] at h
  · intro h
    simp [CircuitBreaker.init] at h

theorem CBInv_call (cb : CircuitBreaker) (now : ℚ) (o : Except String String)
    (hinv : CBInv cb) : CBInv (cb.call now o).breaker := by
  obtain ⟨hinv1, hinv2⟩ := hinv
  simp only [CBInv]
  cases hst : cb.state with
  | closed =>
    rw [call_closed cb now o hst]
    cases o with
    | ok v =>
      rw [callThrough_ok, if_neg (by simp [hst])]
      exact ⟨hinv1, hinv2⟩
    | error e =>
      rw [callThrough_error]
      split_ifs with hth
      · exact ⟨fun _ => by dsimp; omega, fun _ => by simp⟩
      · constructor
        · intro hcontra
          rcases hcontra with h | h <;> dsimp at h <;> rw [hst] at h <;> simp at h
        · intro hcontra
          dsimp at hcontra
          rw [hst] at hcontra
          simp at hcontra
  | opened =>
    cases hl : cb.last_failure_time with
    | none => exact absurd hl (hinv2 hst)
    | some t =>
      by_cases ht : now - t > cb.timeout_seconds
      · rw [call_open_timeout cb now t o hst hl ht]
        cases o with
        | ok v =>
          rw [callThrough_ok, if_pos rfl]
          constructor
          · intro h
            rcases h with h | h <;> simp at h
          · intro h
            simp at h
        | error e =>
          rw [callThrough_error]
          have hth : ({ cb with state := CBState.halfOpen } : CircuitBreaker).failure_threshold ≤
              ({ cb with state := CBState.halfOpen } : CircuitBreaker).failures + 1 := by
            dsimp
            exact le_trans (hinv1 (Or.inl hst)) (Nat.le_succ _)
          rw [if_pos hth]
          exact ⟨fun _ => hth, fun _ => by simp⟩
      · rw [call_open_fast cb now t o hst hl ht]
        exact ⟨hinv1, hinv2⟩
  | halfOpen =>
    rw [call_halfOpen cb now o hst]
    cases o with
    | ok v =>
      rw [callThrough_ok, if_pos hst]
      constructor
      · intro h
        rcases h with h | h <;> simp at h
      · intro h
        simp at h
    | error e =>
      rw [callThrough_error]
      have hth : cb.failure_threshold ≤ cb.failures + 1 :=
        le_trans (hinv1 (Or.inr hst)) (Nat.le_succ _)
      rw [if_pos hth]
      exact ⟨fun _ => hth, fun _ => by simp⟩

theorem call_closed_error (cb : CircuitBreaker) (now : ℚ) (e : String)
    (hst : cb.state = CBState.closed) :
    cb.call now (Except.error e : Except String String) =
      { breaker := if cb.failure_threshold ≤ cb.failures + 1
          then { cb with
                  failures := cb.failures + 1,
                  last_failure_time := some now,
                  state := CBState.opened }
          else { cb with
                  failures := cb.failures + 1,
                  last_failure_time := some now },
        result := Except.error e, invoked := true } := by
  rw [call_closed cb now _ hst, callThrough_error]

theorem runFailures_closed (e : String) : ∀ (ts : List ℚ) (cb : CircuitBreaker),
    cb.state = CBState.closed → cb.failures + ts.length < cb.failure_threshold →
    ((cb.runFailures e ts).1.state = CBState.closed ∧
     (cb.runFailures e ts).1.failures = cb.failures + ts.length ∧
     (cb.runFailures e ts).1.failure_threshold = cb.failure_threshold ∧
     (cb.runFailures e ts).1.timeout_seconds = cb.timeout_seconds ∧
     (cb.runFailures e ts).2 = List.replicate ts.length true) := by
  intro ts
  induction ts with
  | nil =>
    intro cb hst hlt
    exact ⟨hst, by simp [CircuitBreaker.runFailures], rfl, rfl, rfl⟩
  | cons t ts ih =>
    intro cb hst hlt
    have hth : ¬ (cb.failure_threshold ≤ cb.failures + 1) := by
      simp only [List.length_cons] at hlt
      omega
    have hcall : (cb.call t (Except.error e : Except String String)).breaker =
        { cb with failures := cb.failures + 1, last_failure_time := some t } := by
      rw [call_closed_error cb t e hst, if_neg hth]
    have hinvk : (cb.call t (Except.error e : Except String String)).invoked = true := by
      rw [call_closed_error cb t e hst]
    have hres := ih { cb with failures := cb.failures + 1, last_failure_time := some t }
      hst (by simp only [List.length_cons] at hlt; dsimp only; omega)
    simp only [CircuitBreaker.runFailures, hcall, hinvk]
    refine ⟨hres.1, ?_, hres.2.2.1, hres.2.2.2.1, ?_⟩
    · rw [hres.2.1]
      dsimp only
      simp only [List.length_cons]
      omega
    · rw [hres.2.2.2.2]
      simp [List.length_cons, List.replicate_succ]

theorem runFailures_append (e : String) : ∀ (ts1 ts2 : List ℚ) (cb : CircuitBreaker),
    cb.runFailures e (ts1 ++ ts2) =
      (((cb.runFailures e ts1).1.runFailures e ts2).1,
       (cb.runFailures e ts1).2 ++ ((cb.runFailures e ts1).1.runFailures e ts2).2) := by
  intro ts1
  induction ts1 with
  | nil => intro ts2 cb; rfl
  | cons t ts ih =>
    intro ts2 cb
    simp [CircuitBreaker.runFailures, ih, List.cons_append]

/-- C5: starting closed, after exactly `failure_threshold` consecutive
failures the breaker is open (every one of those calls still invoked the
wrapped function, and any shorter failure run leaves it closed); while open
and within `timeout_seconds` of the last failure every call raises the
breaker-open error without invoking the wrapped function; in every reachable
(`CBInv`) half-open state a single success closes the breaker and resets the
failure counter to 0, and a single failure reopens it and resets the failure
timestamp; `CBInv` holds initially and is preserved by every call. -/
theorem circuit_breaker_spec (T : ℕ) (timeout : ℚ) (hT : 1 ≤ T) :
    (∀ (ts : List ℚ) (e : String), ts.length < T →
       ((CircuitBreaker.init T timeout).runFailures e ts).1.state = CBState.closed ∧
       ((CircuitBreaker.init T timeout).runFailures e ts).2 =
         List.replicate ts.length true) ∧
    (∀ (ts : List ℚ) (t : ℚ) (e : String), (ts ++ [t]).length = T →
       ((CircuitBreaker.init T timeout).runFailures e (ts ++ [t])).1.state =
         CBState.opened ∧
       ((CircuitBreaker.init T timeout).runFailures e (ts ++ [t])).1.last_failure_time =
         some t ∧
       ((CircuitBreaker.init T timeout).runFailures e (ts ++ [t])).1.timeout_seconds =
         timeout ∧
       ((CircuitBreaker.init T timeout).runFailures e (ts ++ [t])).2 =
         List.replicate T true) ∧
    (∀ (cb : CircuitBreaker) (now t : ℚ) (o : Except String String),
       cb.state = CBState.opened → cb.last_failure_time = some t →
       now - t ≤ cb.timeout_seconds →
       cb.call now o =
         { breaker := cb, result := Except.error ("Circuit breaker is OPEN"),
           invoked := false }) ∧
    (∀ (cb : CircuitBreaker) (now : ℚ) (v : String), cb.state = CBState.halfOpen →
       (cb.call now (Except.ok v : Except String String)).invoked = true ∧
       (cb.call now (Except.ok v : Except String String)).breaker.state = CBState.closed ∧
       (cb.call now (Except.ok v : Except String String)).breaker.failures = 0 ∧
       (cb.call now (Except.ok v : Except String String)).result = Except.ok v) ∧
    (∀ (cb : CircuitBreaker) (now : ℚ) (e : String), CBInv cb →
       cb.state = CBState.halfOpen →
       (cb.call now (Except.error e : Except String String)).invoked = true ∧
       (cb.call now (Except.error e : Except String String)).breaker.state =
         CBState.opened ∧
       (cb.call now (Except.error e : Except String String)).breaker.last_failure_time =
         some now) ∧
    (CBInv (CircuitBreaker.init T timeout) ∧
     ∀ (cb : CircuitBreaker) (now : ℚ) (o : Except String String), CBInv cb →
       CBInv (cb.call now o).breaker) := by
  refine ⟨?_, ?_, ?_, ?_, ?_, CBInv_init T timeout, fun cb now o hinv => CBInv_call cb now o hinv⟩
  · intro ts e hlen
    have hrun := runFailures_closed e ts (CircuitBreaker.init T timeout) rfl
      (by simp only [CircuitBreaker.init]; omega)
    exact ⟨hrun.1, hrun.2.2.2.2⟩
  · intro ts t e hlen
    have hlen2 : ts.length = T - 1 := by
      simp only [List.length_append, List.length_singleton] at hlen
      omega
    have hmid := runFailures_closed e ts (CircuitBreaker.init T timeout) rfl
      (by simp only [CircuitBreaker.init]; omega)
    obtain ⟨hst, hf, hth, hto, hfl⟩ := hmid
    have hopen : ((CircuitBreaker.init T timeout).runFailures e ts).1.failure_threshold ≤
        ((CircuitBreaker.init T timeout).runFailures e ts).1.failures + 1 := by
      rw [hf, hth]
      simp only [CircuitBreaker.init]
      omega
    have hcall := call_closed_error ((CircuitBreaker.init T timeout).runFailures e ts).1
      t e hst
    rw [if_pos hopen] at hcall
    rw [runFailures_append]
    refine ⟨?_, ?_, ?_, ?_⟩
    · simp only [CircuitBreaker.runFailures, hcall]
    · simp only [CircuitBreaker.runFailures, hcall]
    · simp only [CircuitBreaker.runFailures, hcall]
      rw [hto]
      rfl
    · simp only [CircuitBreaker.runFailures, hcall, hfl]
      rw [hlen2, ← List.replicate_succ']
      congr 1
      omega
  · intro cb now t o hst hl ht
    exact call_open_fast cb now t o hst hl (not_lt.mpr ht)
  · intro cb now v hst
    rw [call_halfOpen cb now _ hst, callThrough_ok, if_pos hst]
    exact ⟨rfl, rfl, rfl, rfl⟩
  · intro cb now e hinv hst
    rw [call_halfOpen cb now _ hst, callThrough_error]
    have hth : cb.failure_threshold ≤ cb.failures + 1 :=
      le_trans (hinv.1 (Or.inr hst)) (Nat.le_succ _)
    rw [if_pos hth]
    exact ⟨rfl, rfl, rfl⟩

/-- Witness for C5 at a concrete breaker with threshold 2. -/
theorem circuit_breaker_spec_witness :
    ((CircuitBreaker.init 2 10).runFailures ("x") ([3] ++ [7])).1.state =
      CBState.opened ∧
    ((CircuitBreaker.init 2 10).runFailures ("x") ([3] ++ [7])).1.last_failure_time =
      some 7 :=
  ⟨(((circuit_breaker_spec 2 10 (by omega)).2.1) [3] 7 ("x") (by decide)).1,
   (((circuit_breaker_spec 2 10 (by omega)).2.1) [3] 7 ("x") (by decide)).2.1⟩

end Orchestrator
